import Mathlib

/-!
Shallow embedding of `twitch-scripts/scraper.py`, a scraper that extracts
structured endpoint documentation from an HTML page.

Python strings are modelled as `List Char` (`Str`).  DOM nodes are modelled
by small structures carrying exactly the data the scraper reads from them
(tag name, `get_text` results, attribute lookups, table bodies).  Python
exceptions (IndexError, KeyError, AttributeError) are modelled with
`Except PyError`.  `casefold` is modelled as ASCII lowering, which agrees
with Python on the ASCII texts the scraper compares.
-/

/-- Python `str` modelled as a list of characters. -/
abbrev Str := List Char

/-- Python exceptions that the scraper can raise. -/
inductive PyError where
  | indexError
  | keyError
  | attributeError
  | fuelExhausted
deriving Repr, DecidableEq

/-- Python `str.casefold()` restricted to ASCII (agrees on the scraper's texts). -/
def toLowerStr (s : Str) : Str := s.map Char.toLower

/-- Index of the first occurrence of `pat` in `s` (Python `str.find` / `str.index`);
`none` when `pat` does not occur. -/
def strFind (pat : Str) : Str → Option Nat
  | [] => if pat.isPrefixOf ([] : Str) then some 0 else none
  | c :: rest =>
      if pat.isPrefixOf (c :: rest) then some 0
      else (strFind pat rest).map (fun n => n + 1)

/-- Python `pat in s`. -/
def containsSub (pat s : Str) : Bool := (strFind pat s).isSome

/-- Python `s.split(" ")`: split at every single space, keeping empty pieces. -/
def pySplitSpace : Str → List Str
  | [] => [[]]
  | c :: rest =>
      match pySplitSpace rest with
      | [] => [[]]
      | h :: t => if c = ' ' then [] :: h :: t else (c :: h) :: t

/-- Python `s.rstrip(".,")`. -/
def rstripDotComma (s : Str) : Str :=
  (s.reverse.dropWhile (fun c => c == '.' || c == ',')).reverse

/-- Characters stripped by Python `str.strip()`. -/
def isPySpace (c : Char) : Bool :=
  c == ' ' || c == '\t' || c == '\n' || c == '\r' || c == '\x0b' || c == '\x0c'

/-- Python `s.strip()`. -/
def pyStrip (s : Str) : Str :=
  ((s.dropWhile isPySpace).reverse.dropWhile isPySpace).reverse

/-- Python `s.replace(pat, rep)` for nonempty `pat`: replace each
non-overlapping occurrence, scanning left to right.  Every step consumes at
least one character, so fuel equal to the length of the text suffices. -/
def pyReplaceGo (pat rep : Str) : Nat → Str → Str
  | 0, s => s
  | _, [] => []
  | fuel + 1, c :: rest =>
      if pat.isPrefixOf (c :: rest) && !pat.isEmpty then
        rep ++ pyReplaceGo pat rep fuel (rest.drop (pat.length - 1))
      else
        c :: pyReplaceGo pat rep fuel rest

/-- Python `s.replace(pat, rep)` for nonempty `pat`. -/
def pyReplace (pat rep s : Str) : Str := pyReplaceGo pat rep s.length s

/-- Python character indexing `s[i]` with one round of negative-index
wrap-around, as `Option` (Python raises IndexError where this is `none`). -/
def pyCharWrap (s : Str) (i : Int) : Option Char :=
  let j := if i < 0 then i + s.length else i
  if j < 0 then none else s.get? j.toNat

/-- Python `lst[0]` on a cut-down `sep`-split: `s.split(sep)[0]` is the text
before the first occurrence of the (nonempty) separator, or all of `s`. -/
def headBeforeSep (sep t : Str) : Str :=
  match strFind sep t with
  | none => t
  | some i => t.take i

/-- A table cell (a `Tag` child of a row), carrying the results of the
`get_text` calls the scraper performs on it and the items of its first
`ul` descendant (`none` when `find("ul")` returns `None`). -/
structure Cell where
  /-- `get_text(strip=True, separator=" ")`. -/
  text : Str
  /-- `get_text(strip=True)` (no separator), used for the "required" flag. -/
  textStrip : Str
  /-- Texts of the `Tag` children of the cell's first `ul`, via
  `get_text(separator=" ", strip=True)`; `none` when there is no `ul`. -/
  ulItems : Option (List Str) := none
deriving Repr, DecidableEq

/-- A child of a table row: either a `NavigableString` or a `Tag` cell. -/
inductive RowChild where
  | text (s : Str)
  | tag (c : Cell)
deriving Repr, DecidableEq

/-- A child of a `tbody`: either a `NavigableString` or a row `Tag`. -/
inductive BodyChild where
  | text (s : Str)
  | row (children : List RowChild)
deriving Repr, DecidableEq

/-- `[child for child in row.children if isinstance(child, Tag)]`. -/
def rowCells (r : List RowChild) : List Cell :=
  r.filterMap fun c =>
    match c with
    | .tag t => some t
    | .text _ => none

/-- Python list indexing `lst[i]` for non-negative `i`: IndexError when out of range. -/
def cellAt (td : List Cell) (i : Nat) : Except PyError Cell :=
  match td.get? i with
  | some c => .ok c
  | none => .error .indexError

/-- One documented request/response/query field (`HttpField` TypedDict).
`total=False`: a key the code never assigns is modelled as `none`. -/
structure HttpField where
  key : Str
  type : Str
  required : Option Bool := none
  description : Str
  default_value : Option Str := none
  possible_values : Option (List Str) := none
deriving Repr, DecidableEq

def strYes : Str := "yes".toList
def strNo : Str := "no".toList
def strString : Str := "string".toList
def strPossibleValues : Str := "Possible values".toList
def strTheDefaultIs : Str := "The default is".toList
def strSpEmDashSp : Str := " — ".toList
def strEmDash : Str := "—".toList
def strSpHyphenSp : Str := " - ".toList
def strHyphen : Str := "-".toList

/-- `pull_scopes`: the `strong` descendants' texts, case-folded.  The prose
block is modelled by the list of those texts. -/
def pull_scopes (strongTexts : List Str) : List Str :=
  strongTexts.map toLowerStr

/-- Splitting of one `ul` item inside `pull_possible_values_list`:
split at a spaced em-dash if an em-dash occurs, else at a spaced hyphen
if a hyphen occurs, else keep the whole text. -/
def splitPossibleValue (t : Str) : Str :=
  if containsSub strEmDash t then headBeforeSep strSpEmDashSp t
  else if containsSub strHyphen t then headBeforeSep strSpHyphenSp t
  else t

/-- `pull_possible_values_list`: items of the description cell's first `ul`
(empty when there is none), each cut before its em-dash/hyphen delimiter. -/
def pull_possible_values_list (ulItems : Option (List Str)) : List Str :=
  match ulItems with
  | none => []
  | some items => items.map splitPossibleValue

/-- Default-value extraction inside `parse_request_body`: the token after
`"The default is "` up to the first space, with `dv[1:-1]` applied when the
token starts with a double quote, then `rstrip(".,")`. -/
def computeDefault (desc : Str) : Option Str :=
  match strFind strTheDefaultIs desc with
  | none => none
  | some index =>
      let dv := (pySplitSpace (desc.drop (index + strTheDefaultIs.length + 1))).headD []
      let dv := if dv.head? = some '\"' then (dv.drop 1).dropLast else dv
      some (rstripDotComma dv)

/-- One row of `parse_request_body`, applied to the row's `Tag` cells. -/
def parseRequestRow (td : List Cell) : Except PyError HttpField := do
  let c0 ← cellAt td 0
  let c1 ← cellAt td 1
  let key := c0.text
  let tpe := toLowerStr c1.text
  let (req, desc, raw) ←
    if td.length = 4 then do
      let c2 ← cellAt td 2
      let c3 ← cellAt td 3
      let boolText := toLowerStr c2.textStrip
      let req : Option Bool :=
        if boolText = strYes then some true
        else if boolText = strNo then some false
        else none
      pure (req, c3.text, c3)
    else do
      let c2 ← cellAt td 2
      pure ((some false : Option Bool), c2.text, c2)
  let possible : Option (List Str) :=
    if containsSub strPossibleValues desc = true ∧ tpe = toLowerStr strString then
      some (pull_possible_values_list raw.ulItems)
    else none
  let dflt : Option Str :=
    if containsSub strTheDefaultIs desc = true then computeDefault desc else none
  pure { key := key, type := tpe, required := req, description := desc,
         default_value := dflt, possible_values := possible }

/-- The row loop of `parse_request_body` (NavigableString rows skipped). -/
def parseRequestRows : List BodyChild → Except PyError (List HttpField)
  | [] => .ok []
  | .text _ :: rest => parseRequestRows rest
  | .row r :: rest => do
      let f ← parseRequestRow (rowCells r)
      let fs ← parseRequestRows rest
      pure (f :: fs)

/-- `parse_request_body`: the table is modelled by its `tbody` children
(`none` when `find("tbody")` returns `None`, which raises AttributeError). -/
def parse_request_body (tbody : Option (List BodyChild)) : Except PyError (List HttpField) :=
  match tbody with
  | none => .error .attributeError
  | some rows => parseRequestRows rows

def strBrackets : Str := "[]".toList
def strObject : Str := "Object".toList
def strArrayInfix : Str := "[#].".toList
def strDot : Str := ".".toList

/-- `key_format_string.format(key)`: the format string is always a prefix
followed by a single placeholder, so formatting prepends the prefix. -/
def applyFmt (fmt : Option Str) (key : Str) : Str :=
  match fmt with
  | none => key
  | some pre => pre ++ key

/-- The row loop of `parse_response_body`, carrying `key_format_string`. -/
def parseResponseRows : Option Str → List BodyChild → Except PyError (List HttpField)
  | _, [] => .ok []
  | fmt, .text _ :: rest => parseResponseRows fmt rest
  | fmt, .row r :: rest => do
      let data := rowCells r
      let c0 ← cellAt data 0
      let c1 ← cellAt data 1
      let c2 ← cellAt data 2
      let key := c0.text
      let fkey := toLowerStr (applyFmt fmt key)
      let field : HttpField :=
        { key := fkey, type := toLowerStr c1.text, description := c2.text }
      let fmt2 : Option Str :=
        if (toLowerStr strBrackets).isSuffixOf (toLowerStr fkey) then
          some (key ++ strArrayInfix)
        else if (toLowerStr strObject).isPrefixOf (toLowerStr fkey) then
          some (key ++ strDot)
        else fmt
      let fs ← parseResponseRows fmt2 rest
      pure (field :: fs)

/-- `parse_response_body`: the table is modelled by its `tbody` children. -/
def parse_response_body (tbody : Option (List BodyChild)) : Except PyError (List HttpField) :=
  match tbody with
  | none => .error .attributeError
  | some rows => parseResponseRows none rows

/-- A sibling DOM node inside the left documentation column, carrying the
pieces of it that `scrape_doc_left_column` reads.  A `NavigableString`
sibling has `name = none`. -/
structure LNode where
  name : Option Str := none
  /-- `attrs.get("id", None)`. -/
  idAttr : Option Str := none
  /-- `get_text(strip=True, separator=" ")`. -/
  text : Str := []
  /-- Texts of `strong` descendants, for `pull_scopes`. -/
  strongTexts : List Str := []
  /-- The node's `tbody` children when the node is a table. -/
  tbody : Option (List BodyChild) := none
deriving Repr, DecidableEq

/-- The `EndpointDoc` TypedDict (`total=False`): unassigned keys are `none`.
`example_response` is attached later by `scrape_doc_section` and is not
needed by the left-column parser. -/
structure EndpointDoc where
  title : Option Str := none
  summary : Option Str := none
  method : Option Str := none
  url : Option Str := none
  scopes : Option (List Str) := none
  request_body : Option (List HttpField) := none
  query_params : Option (List HttpField) := none
  response_body : Option (List HttpField) := none
deriving Repr, DecidableEq

/-- Loop state of `scrape_doc_left_column`: the record under construction
and the `current_header` cursor. -/
structure LCState where
  doc : EndpointDoc
  current_header : Option Str
deriving Repr, DecidableEq

def strH2 : Str := "h2".toList
def strP : Str := "p".toList
def strH3 : Str := "h3".toList
def strTable : Str := "table".toList
def strAuthorization : Str := "Authorization".toList
def strURL : Str := "URL".toList
def strRequestBody : Str := "Request Body".toList
def strRequestQueryParameters : Str := "Request Query Parameters".toList
def strResponseBody : Str := "Response Body".toList
def strGET : Str := "GET".toList
def strNewline2 : Str := "\n\n".toList

/-- Python truthiness of `attrs.get("id", None)`: `None` and `""` are falsy. -/
def idTruthy (a : Option Str) : Bool :=
  match a with
  | none => false
  | some s => !s.isEmpty

/-- One iteration of the `scrape_doc_left_column` loop.  The branch order
mirrors the source's `if`/`elif` chain; the paragraph branch evaluates
`endpoint_doc["title"]` and therefore raises KeyError when no title has
been set yet. -/
def lcStep (st : LCState) (child : LNode) : Except PyError LCState :=
  if child.name = some strH2 ∧ idTruthy child.idAttr = true then
    let t := child.text
    .ok { doc := { st.doc with title := some t }, current_header := some t }
  else if child.name = some strP then
    match st.doc.title with
    | none => .error .keyError
    | some t =>
        if st.current_header = some t then
          let s0 : Str :=
            match st.doc.summary with
            | none => []
            | some s => if s = [] then [] else s
          let s1 := pyStrip (s0 ++ strNewline2 ++ child.text)
          .ok { st with doc := { st.doc with summary := some s1 } }
        else if st.current_header = some strAuthorization then
          .ok { st with doc := { st.doc with scopes := some (pull_scopes child.strongTexts) } }
        else if st.current_header = some strURL then
          match pySplitSpace child.text with
          | [seg0, seg1] =>
              .ok { st with doc := { st.doc with method := some seg0, url := some seg1 } }
          | [] => .error .indexError
          | seg0 :: _ =>
              .ok { st with doc := { st.doc with method := some strGET, url := some seg0 } }
        else .ok st
  else if child.name = some strH3 then
    .ok { st with current_header := some child.text }
  else if child.name = some strTable ∧ st.current_header = some strRequestBody then do
    let fs ← parse_request_body child.tbody
    .ok { st with doc := { st.doc with request_body := some fs } }
  else if child.name = some strTable ∧ st.current_header = some strRequestQueryParameters then do
    let fs ← parse_request_body child.tbody
    .ok { st with doc := { st.doc with query_params := some fs } }
  else if child.name = some strTable ∧ st.current_header = some strResponseBody then do
    let fs ← parse_response_body child.tbody
    .ok { st with doc := { st.doc with response_body := some fs } }
  else .ok st

/-- The child loop of `scrape_doc_left_column`. -/
def lcFold : LCState → List LNode → Except PyError LCState
  | st, [] => .ok st
  | st, c :: rest => do lcFold (← lcStep st c) rest

def initLCState : LCState := { doc := {}, current_header := none }

/-- `scrape_doc_left_column`, over the list of the column's child nodes. -/
def scrape_doc_left_column (children : List LNode) : Except PyError EndpointDoc :=
  (lcFold initLCState children).map (fun st => st.doc)

/-- The character `\x7b` (opening curly brace). -/
def lbraceChar : Char := Char.ofNat 123

/-- The quoted property name `F'"\x7bproperty_name\x7d"'`. -/
def quotedProp (name : Str) : Str := '\"' :: (name ++ ['\"'])

/-- The `while True` loop of `fix_json_property`, with state
`(string_copy, index)`.  Each iteration reassigns `index` to the offset of
the next occurrence *relative to the slice `string_copy[index:]`* (as the
source does), reads `string_copy[index - 1]` with Python's negative-index
wrap-around, and either returns or inserts a comma at `index`.  The loop
has no syntactic bound, so the embedding carries fuel; every run proved
about below returns well within the fuel supplied by `fix_json_property`. -/
def fixJsonGo (p : Str) : Nat → Str → Nat → Except PyError Str
  | 0, _, _ => .error .fuelExhausted
  | fuel + 1, s, index =>
      match strFind p (s.drop index) with
      | none => .ok s
      | some m =>
          match pyCharWrap s ((m : Int) - 1) with
          | none => .error .indexError
          | some c =>
              if c = ',' ∨ c = lbraceChar then .ok s
              else fixJsonGo p fuel (s.take m ++ ',' :: s.drop m) m

/-- `fix_json_property(json_string, property_name)`. -/
def fix_json_property (json_string property_name : Str) : Except PyError Str :=
  fixJsonGo (quotedProp property_name) (json_string.length + 2) json_string 0

def strEllipsis : Str := "...".toList
def strCommaRBracket : Str := ",]".toList
def strRBracket : Str := "]".toList
def strCommaRBrace : Str := ",\x7d".toList
def strRBrace : Str := "\x7d".toList
def strData : Str := "data".toList
def strClickAction : Str := "click_action".toList

/-- The text-repair pipeline of `scrape_doc_section` (lines 222-226):
remove `...`, fix trailing commas before `]` and `\x7d`, then run
`fix_json_property` for `data` and for `click_action`. -/
def repairPipeline (s : Str) : Except PyError Str := do
  let s := pyReplace strEllipsis [] s
  let s := pyReplace strCommaRBracket strRBracket s
  let s := pyReplace strCommaRBrace strRBrace s
  let s ← fix_json_property s strData
  fix_json_property s strClickAction

/-- A direct child of the page's `main` container, for the walker loop of
`scrape_docs`; only its tag name matters there (`none` for text nodes). -/
structure WNode where
  name : Option Str := none
  tagId : Nat := 0
deriving Repr, DecidableEq

def strSection : Str := "section".toList

/-- `child.name is None or child.name.casefold() != "section"`, negated:
does the child's tag identify a section? -/
def isSectionNode (c : WNode) : Bool :=
  match c.name with
  | none => false
  | some n => toLowerStr n = toLowerStr strSection

/-- The child loop of `scrape_docs` (lines 246-255), with the
`at_endpoint_definition_table` flag; returns the children the generator
yields (each of which produces exactly one `scrape_doc_section` record). -/
def walkerYield : Bool → List WNode → List WNode
  | _, [] => []
  | flag, c :: rest =>
      if flag = true ∨ c.name = none ∨ (c.name.map toLowerStr ≠ some (toLowerStr strSection)) then
        walkerYield false rest
      else
        c :: walkerYield flag rest

/-- `scrape_docs`, with the fetch modelled by its outcome: `ok` is
`response.ok` and `mainChildren` the children of the `div.main` container
of the parsed body (`none` when that lookup fails).  A non-success
response returns before parsing anything, yielding no records. -/
def scrape_docs (ok : Bool) (mainChildren : Option (List WNode)) :
    Except PyError (List WNode) :=
  if ok = false then .ok []
  else
    match mainChildren with
    | none => .error .attributeError
    | some cs => .ok (walkerYield true cs)

/-- A JSON value, as produced by Python's `json.loads` (an external
standard-library collaborator of the scraper).  Objects keep their members
in document order; the page examples the scraper feeds to `json.loads`
have no duplicate keys, where the two representations agree. -/
inductive Json where
  | null
  | bool (b : Bool)
  | num (n : Int)
  | str (s : Str)
  | arr (items : List Json)
  | obj (members : List (Str × Json))

/-- JSON inter-token whitespace (the characters `json.loads` skips). -/
def skipWs (s : Str) : Str :=
  s.dropWhile (fun c => c == ' ' || c == '\t' || c == '\n' || c == '\r')

/-- JSON string escape characters (`\uXXXX` escapes do not occur in the
scraper's inputs and are not modelled). -/
def escChar (c : Char) : Option Char :=
  if c = '\"' then some '\"'
  else if c = '\\' then some '\\'
  else if c = '/' then some '/'
  else if c = 'n' then some '\n'
  else if c = 't' then some '\t'
  else if c = 'r' then some '\r'
  else if c = 'b' then some (Char.ofNat 8)
  else if c = 'f' then some (Char.ofNat 12)
  else none

/-- Parse the body of a JSON string after its opening quote, returning the
decoded characters and the remaining input. -/
def parseStringBody : Str → Option (Str × Str)
  | [] => none
  | c :: rest =>
      if c = '\"' then some ([], rest)
      else if c = '\\' then
        match rest with
        | [] => none
        | e :: rest2 =>
            match escChar e with
            | none => none
            | some ec =>
                match parseStringBody rest2 with
                | none => none
                | some (body, rem) => some (ec :: body, rem)
      else
        match parseStringBody rest with
        | none => none
        | some (body, rem) => some (c :: body, rem)

/-- Accumulate decimal digits. -/
def digitsToNat (acc : Nat) : Str → (Nat × Str)
  | [] => (acc, [])
  | c :: rest =>
      if c.isDigit then digitsToNat (acc * 10 + (c.toNat - 48)) rest
      else (acc, c :: rest)

/-- Parse a JSON integer (the scraper's example payloads contain no
floats or exponents). -/
def parseNumber : Str → Option (Json × Str)
  | [] => none
  | '-' :: rest =>
      match rest with
      | [] => none
      | c :: _ =>
          if c.isDigit then
            match digitsToNat 0 rest with
            | (n, rem) => some (.num (-(n : Int)), rem)
          else none
  | c :: rest =>
      if c.isDigit then
        match digitsToNat 0 (c :: rest) with
        | (n, rem) => some (.num ((n : Nat) : Int), rem)
      else none

mutual

/-- Fuel-bounded recursive-descent JSON value parser modelling `json.loads`. -/
def parseValueF : Nat → Str → Option (Json × Str)
  | 0, _ => none
  | fuel + 1, s =>
      match skipWs s with
      | [] => none
      | c :: rest =>
          if c = '\"' then
            match parseStringBody rest with
            | none => none
            | some (body, rem) => some (.str body, rem)
          else if c = 't' then
            if ("rue".toList).isPrefixOf rest then some (.bool true, rest.drop 3) else none
          else if c = 'f' then
            if ("alse".toList).isPrefixOf rest then some (.bool false, rest.drop 4) else none
          else if c = 'n' then
            if ("ull".toList).isPrefixOf rest then some (.null, rest.drop 3) else none
          else if c = '[' then
            match skipWs rest with
            | ']' :: rem => some (.arr [], rem)
            | s2 =>
                match parseArrayRestF fuel s2 with
                | none => none
                | some (vs, rem) => some (.arr vs, rem)
          else if c = Char.ofNat 123 then
            match skipWs rest with
            | [] => none
            | c2 :: rem =>
                if c2 = Char.ofNat 125 then some (.obj [], rem)
                else
                  match parseObjectRestF fuel (c2 :: rem) with
                  | none => none
                  | some (ms, rem2) => some (.obj ms, rem2)
          else parseNumber (c :: rest)

/-- Items of a JSON array after the opening bracket (nonempty case). -/
def parseArrayRestF : Nat → Str → Option (List Json × Str)
  | 0, _ => none
  | fuel + 1, s =>
      match parseValueF fuel s with
      | none => none
      | some (v, rem) =>
          match skipWs rem with
          | ',' :: rem2 =>
              match parseArrayRestF fuel rem2 with
              | none => none
              | some (vs, rem3) => some (v :: vs, rem3)
          | ']' :: rem2 => some ([v], rem2)
          | _ => none

/-- Members of a JSON object after the opening brace (nonempty case). -/
def parseObjectRestF : Nat → Str → Option (List (Str × Json) × Str)
  | 0, _ => none
  | fuel + 1, s =>
      match skipWs s with
      | '\"' :: rest =>
          match parseStringBody rest with
          | none => none
          | some (keyStr, rem) =>
              match skipWs rem with
              | ':' :: rem2 =>
                  match parseValueF fuel rem2 with
                  | none => none
                  | some (v, rem3) =>
                      match skipWs rem3 with
                      | [] => none
                      | ',' :: rem4 =>
                          match parseObjectRestF fuel rem4 with
                          | none => none
                          | some (ms, rem5) => some ((keyStr, v) :: ms, rem5)
                      | c4 :: rem4 =>
                          if c4 = Char.ofNat 125 then some ([(keyStr, v)], rem4) else none
              | _ => none
      | _ => none

end

/-- `json.loads`: parse a complete JSON document, rejecting trailing input. -/
def parseJson (s : Str) : Option Json :=
  match parseValueF (2 * s.length + 8) s with
  | none => none
  | some (v, rem) => if skipWs rem = [] then some v else none

/-- Modelled from the spec, as the refinement reference for the comma
repair: "scan the text left-to-right for every occurrence of the quoted
property name and, for each occurrence whose immediately preceding
character is not `,` or `\x7b` ..., insert a `,` immediately before it".
`prev` is the character immediately preceding the scan position.  Every
step consumes at least one character, so fuel `length + 1` suffices. -/
def specCommaFixGo (p : Str) : Nat → Option Char → Str → Str
  | 0, _, s => s
  | _, _, [] => []
  | fuel + 1, prev, c :: rest =>
      if p.isPrefixOf (c :: rest) && !p.isEmpty then
        (if prev = some ',' ∨ prev = some lbraceChar then [] else [','])
          ++ p ++ specCommaFixGo p fuel p.getLast? ((c :: rest).drop p.length)
      else
        c :: specCommaFixGo p fuel (some c) rest

/-- Modelled from the spec: comma repair for one property name, as the
spec's left-to-right scan describes it. -/
def specCommaFix (s name : Str) : Str :=
  specCommaFixGo (quotedProp name) (s.length + 1) none s

/-- Shorthand for building `Str` fixtures. -/
def sl (s : String) : Str := s.toList

/-- A cell whose `get_text` results both equal `t` (single-fragment cells). -/
def mkCellS (t : Str) : Cell := { text := t, textStrip := t }

/-- A table row whose `Tag` cells carry the given texts. -/
def rowOf (ts : List Str) : BodyChild := .row (ts.map fun t => .tag (mkCellS t))

/-- Response-body fixture: an array-opening row then two plain rows. -/
def respArrTable : Option (List BodyChild) :=
  some [rowOf [sl "data[]", sl "Object[]", sl "d1"],
        rowOf [sl "id", sl "String", sl "d2"],
        rowOf [sl "name", sl "String", sl "d3"]]

/-- Response-body fixture: an `Object` row then two plain rows. -/
def respObjTable : Option (List BodyChild) :=
  some [rowOf [sl "Object", sl "Object", sl "d1"],
        rowOf [sl "count", sl "Integer", sl "d2"],
        rowOf [sl "total", sl "Integer", sl "d3"]]

/-- A 4-cell request row whose third cell carries the given flag text. -/
def reqRow4 (flag : Str) : List Cell :=
  [mkCellS (sl "key"), mkCellS (sl "Integer"), mkCellS flag, mkCellS (sl "desc")]

/-- A 4-cell request row with the given description text. -/
def reqRowDesc (desc : Str) : List Cell :=
  [mkCellS (sl "first"), mkCellS (sl "Integer"), mkCellS (sl "no"), mkCellS desc]

/-- A text-only walker child (a `NavigableString`, `name is None`). -/
def wTextNode : WNode := { name := none, tagId := 0 }

/-- A `section` walker child. -/
def wSectionNode : WNode := { name := some (sl "section"), tagId := 1 }

/-- A paragraph node for the left-column parser. -/
def pNodeW : LNode := { name := some (sl "p"), text := sl "hello" }

theorem strFind_none_cons {pat : Str} {c : Char} {rest : Str}
    (h : strFind pat (c :: rest) = none) : strFind pat rest = none := by
  simp only [strFind] at h
  split at h
  · exact absurd h (by simp)
  · cases hr : strFind pat rest with
    | none => rfl
    | some n => rw [hr] at h; simp at h

theorem pyReplaceGo_of_not_found {pat rep : Str} (fuel : Nat) (s : Str)
    (h : strFind pat s = none) : pyReplaceGo pat rep fuel s = s := by
  induction fuel generalizing s with
  | zero => cases s <;> rfl
  | succ n ih =>
      cases s with
      | nil => rfl
      | cons c rest =>
          have hnp : ¬ pat.isPrefixOf (c :: rest) = true := by
            intro hp
            simp [strFind, hp] at h
          rw [pyReplaceGo]
          simp only [hnp, Bool.false_and, if_neg (Bool.false_ne_true)]
          rw [ih rest (strFind_none_cons h)]

theorem pyReplace_of_not_found {pat rep : Str} (s : Str)
    (h : strFind pat s = none) : pyReplace pat rep s = s :=
  pyReplaceGo_of_not_found s.length s h

theorem fixJsonGo_step (p : Str) (fuel : Nat) (s : Str) (index : Nat) :
    fixJsonGo p (fuel + 1) s index =
      match strFind p (s.drop index) with
      | none => .ok s
      | some m =>
          match pyCharWrap s ((m : Int) - 1) with
          | none => .error .indexError
          | some c =>
              if c = ',' ∨ c = lbraceChar then .ok s
              else fixJsonGo p fuel (s.take m ++ ',' :: s.drop m) m := rfl

/-- When the quoted property does not occur, `fix_json_property` returns
its input unchanged. -/
theorem fixJson_none (s name : Str)
    (h : strFind (quotedProp name) s = none) :
    fix_json_property s name = .ok s := by
  unfold fix_json_property
  rw [show s.length + 2 = (s.length + 1) + 1 from rfl, fixJsonGo_step]
  simp [h]

/-- When the first occurrence of the quoted property sits after a `,` or a
`\x7b`, the loop returns the text unchanged on its first iteration. -/
theorem fixJson_sep (s name : Str) (i : Nat) (c : Char)
    (hf : strFind (quotedProp name) s = some i) (hi : 1 ≤ i)
    (hg : s.get? (i - 1) = some c) (hc : c = ',' ∨ c = lbraceChar) :
    fix_json_property s name = .ok s := by
  unfold fix_json_property
  rw [show s.length + 2 = (s.length + 1) + 1 from rfl, fixJsonGo_step]
  have hw : pyCharWrap s ((i : Int) - 1) = some c := by
    unfold pyCharWrap
    have h0 : ¬ ((i : Int) - 1 < 0) := by omega
    have h1 : ((i : Int) - 1).toNat = i - 1 := by omega
    simp only [if_neg h0, h1, hg]
  simp only [List.drop_zero, hf, hw]
  simp [hc]

/-- When the text begins with the quoted property and does not end in `,`
or `\x7b`, the loop prepends exactly one comma and stops: Python's negative
indexing makes `string_copy[index - 1]` read the last character. -/
theorem fixJson_prepend (s name : Str)
    (hp : (quotedProp name).isPrefixOf s = true)
    (hlast : ∀ c, s.getLast? = some c → ¬(c = ',' ∨ c = lbraceChar)) :
    fix_json_property s name = .ok (',' :: s) := by
  have hsne : s ≠ [] := by
    intro h
    subst h
    simp [quotedProp, List.isPrefixOf] at hp
  have hlen : 1 ≤ s.length := List.length_pos.mpr hsne
  have hfind : strFind (quotedProp name) s = some 0 := by
    cases s with
    | nil => exact absurd rfl hsne
    | cons a r => simp [strFind, hp]
  obtain ⟨c0, hc0⟩ : ∃ c0, s.getLast? = some c0 := by
    have := List.getLast?_isSome.mpr hsne
    exact Option.isSome_iff_exists.mp this
  have hwrap : pyCharWrap s (((0 : Nat) : Int) - 1) = some c0 := by
    unfold pyCharWrap
    have h0 : (((0 : Nat) : Int) - 1 < 0) := by omega
    have h1 : ¬ (((0 : Nat) : Int) - 1 + (s.length : Int) < 0) := by omega
    have h2 : (((0 : Nat) : Int) - 1 + (s.length : Int)).toNat = s.length - 1 := by omega
    simp only [if_pos h0, if_neg h1, h2]
    rw [List.get?_eq_getElem?, ← List.getLast?_eq_getElem?, hc0]
  have hnp : ¬ (quotedProp name).isPrefixOf (',' :: s) = true := by
    simp [quotedProp, List.isPrefixOf]
  have hfind2 : strFind (quotedProp name) (',' :: s) = some 1 := by
    rw [strFind, if_neg hnp, hfind]
    rfl
  have hwrap2 : pyCharWrap (',' :: s) (((1 : Nat) : Int) - 1) = some ',' := by
    unfold pyCharWrap
    norm_num
  unfold fix_json_property
  rw [show s.length + 2 = (s.length + 1) + 1 from rfl, fixJsonGo_step]
  simp only [List.drop_zero, hfind, hwrap]
  rw [if_neg (hlast c0 hc0)]
  simp only [List.take_zero, List.nil_append, List.drop_zero]
  rw [fixJsonGo_step]
  simp only [List.drop_zero, hfind2, hwrap2]
  simp

/-- C8: a non-success HTTP response makes `scrape_docs` return before
parsing anything, yielding zero endpoint records with no error — the same
`.ok []` output an endpoint-free page produces. -/
theorem scrape_docs_network_failure :
    (∀ mainChildren, scrape_docs false mainChildren = .ok ([] : List WNode)) ∧
    scrape_docs true (some []) = .ok ([] : List WNode) := by
  exact ⟨fun mainChildren => rfl, rfl⟩

/-- C10: when the text starts with the quoted property name and its final
character is neither "," nor "\x7b", the `string_copy[index - 1]` check
wraps around to the last character (Python negative indexing) and a single
comma is prepended to the front of the text. -/
theorem fix_json_property_wraparound (s name : Str)
    (hp : (quotedProp name).isPrefixOf s = true)
    (hlast : ∀ c, s.getLast? = some c → ¬(c = ',' ∨ c = lbraceChar)) :
    fix_json_property s name = .ok (',' :: s) :=
  fixJson_prepend s name hp hlast

theorem fix_json_property_wraparound_witness :
    fix_json_property (sl "\"data\":1") strData = .ok (',' :: sl "\"data\":1") :=
  fix_json_property_wraparound (sl "\"data\":1") strData (by decide)
    (fun c hc => by
      have h1 : c = '1' := by
        rw [show (sl "\"data\":1").getLast? = some '1' from rfl] at hc
        exact (Option.some.inj hc).symm
      subst h1
      decide)

/-- C5 counterexample: `fix_json_property` does not implement the claimed
left-to-right scan over every occurrence.  On `\x7b"data":1 "data":2\x7d`
the first occurrence of `"data"` is preceded by `\x7b`, so the loop returns
at once and the second, space-preceded occurrence never receives its comma,
while the claimed scan (`specCommaFix`) inserts one. -/
theorem fix_json_property_counterexample :
    ¬ (∀ s : Str, fix_json_property s strData = .ok (specCommaFix s strData)) := by
  intro h
  have hx := h (sl "\x7b\"data\":1 \"data\":2\x7d")
  rw [show fix_json_property (sl "\x7b\"data\":1 \"data\":2\x7d") strData
        = .ok (sl "\x7b\"data\":1 \"data\":2\x7d") from rfl] at hx
  rw [show specCommaFix (sl "\x7b\"data\":1 \"data\":2\x7d") strData
        = sl "\x7b\"data\":1 ,\"data\":2\x7d" from rfl] at hx
  simp only [Except.ok.injEq] at hx
  exact absurd hx (by decide)

/-- C5 (amended): the repair loop only examines occurrences up to the first
one already preceded by "," or "\x7b" — finding such an occurrence returns
the text unchanged, leaving later badly-preceded occurrences unrepaired;
on the spec's example `\x7b"id":"1""data":"x"\x7d` the missing comma is
inserted and the result parses as JSON with both keys "id" and "data". -/
theorem fix_json_property_amended :
    (∀ s name : Str, ∀ i : Nat, ∀ c : Char,
        strFind (quotedProp name) s = some i → 1 ≤ i → s.get? (i - 1) = some c →
        (c = ',' ∨ c = lbraceChar) → fix_json_property s name = .ok s) ∧
    (fix_json_property (sl "\x7b\"id\":\"1\"\"data\":\"x\"\x7d") strData
        = .ok (sl "\x7b\"id\":\"1\",\"data\":\"x\"\x7d") ∧
      parseJson (sl "\x7b\"id\":\"1\",\"data\":\"x\"\x7d")
        = some (.obj [(sl "id", .str (sl "1")), (sl "data", .str (sl "x"))])) :=
  ⟨fun s name i c hf hi hg hc => fixJson_sep s name i c hf hi hg hc, rfl, rfl⟩

theorem fix_json_property_amended_witness :
    fix_json_property (sl "\x7b\"data\":1\x7d") strData = .ok (sl "\x7b\"data\":1\x7d") :=
  fix_json_property_amended.1 (sl "\x7b\"data\":1\x7d") strData 1 lbraceChar
    (by decide) (by decide) (by decide) (Or.inr rfl)

/-- C6 counterexample: the repair pipeline is not value-preserving on valid
JSON.  The valid document `"..."` (a JSON string of three dots) has its
dots deleted by the `...`-removal pass, so repairing and parsing yields the
empty string instead of the original value. -/
theorem repair_idempotence_counterexample :
    ¬ (∀ (s : Str) (v : Json), parseJson s = some v →
        ∃ t, repairPipeline s = .ok t ∧ parseJson t = some v) := by
  intro h
  obtain ⟨t, ht, hv⟩ := h (sl "\"...\"") (.str (sl "...")) rfl
  rw [show repairPipeline (sl "\"...\"") = .ok (sl "\"\"") from rfl] at ht
  simp only [Except.ok.injEq] at ht
  subst ht
  rw [show parseJson (sl "\"\"") = some (.str []) from rfl] at hv
  simp only [Option.some.injEq, Json.str.injEq] at hv
  exact absurd hv (by decide)

/-- C6 (amended): on text containing none of `...`, `,]`, `,\x7d`, and in
which the first occurrence (if any) of `"data"` and of `"click_action"` is
already preceded by "," or "\x7b", the repair pipeline returns the text
unchanged, so repairing then parsing agrees with parsing directly. -/
theorem repair_idempotence_amended (s : Str)
    (h1 : strFind strEllipsis s = none)
    (h2 : strFind strCommaRBracket s = none)
    (h3 : strFind strCommaRBrace s = none)
    (h4 : strFind (quotedProp strData) s = none ∨
          ∃ i c, strFind (quotedProp strData) s = some i ∧ 1 ≤ i ∧
            s.get? (i - 1) = some c ∧ (c = ',' ∨ c = lbraceChar))
    (h5 : strFind (quotedProp strClickAction) s = none ∨
          ∃ i c, strFind (quotedProp strClickAction) s = some i ∧ 1 ≤ i ∧
            s.get? (i - 1) = some c ∧ (c = ',' ∨ c = lbraceChar)) :
    repairPipeline s = .ok s ∧
    (repairPipeline s).toOption.bind parseJson = parseJson s := by
  have f1 : fix_json_property s strData = .ok s := by
    rcases h4 with h | ⟨i, c, hf, hi, hg, hc⟩
    · exact fixJson_none s strData h
    · exact fixJson_sep s strData i c hf hi hg hc
  have f2 : fix_json_property s strClickAction = .ok s := by
    rcases h5 with h | ⟨i, c, hf, hi, hg, hc⟩
    · exact fixJson_none s strClickAction h
    · exact fixJson_sep s strClickAction i c hf hi hg hc
  have hrep : repairPipeline s = .ok s := by
    unfold repairPipeline
    simp only [pyReplace_of_not_found s h1, pyReplace_of_not_found s h2,
               pyReplace_of_not_found s h3, f1]
    exact f2
  exact ⟨hrep, by rw [hrep]; rfl⟩

theorem repair_idempotence_amended_witness :
    repairPipeline (sl "\x7b\"a\":1\x7d") = .ok (sl "\x7b\"a\":1\x7d") ∧
    (repairPipeline (sl "\x7b\"a\":1\x7d")).toOption.bind parseJson
      = parseJson (sl "\x7b\"a\":1\x7d") :=
  repair_idempotence_amended (sl "\x7b\"a\":1\x7d") (by decide) (by decide)
    (by decide) (Or.inl (by decide)) (Or.inl (by decide))

theorem parseRequestRow_four (c0 c1 c2 c3 : Cell) :
    parseRequestRow [c0, c1, c2, c3] = .ok
      { key := c0.text
        type := toLowerStr c1.text
        required := (if toLowerStr c2.textStrip = strYes then some true
          else if toLowerStr c2.textStrip = strNo then some false else none)
        description := c3.text
        default_value := (if containsSub strTheDefaultIs c3.text = true
          then computeDefault c3.text else none)
        possible_values := (if containsSub strPossibleValues c3.text = true
            ∧ toLowerStr c1.text = toLowerStr strString
          then some (pull_possible_values_list c3.ulItems) else none) } := rfl

/-- C3 counterexample: a 4-cell row whose third cell reads "Optional" gets
a field whose `required` key is absent (`none`), not the claimed default
`false` (`some false`): the `match` has no default arm, so the key is never
assigned. -/
theorem required_flag_counterexample :
    ((parseRequestRow (reqRow4 (sl "Optional"))).map (fun f => f.required) = .ok none) ∧
    (none : Option Bool) ≠ some false :=
  ⟨rfl, by decide⟩

/-- C3 (amended): in 4-cell rows, a third cell case-folding to "yes" gives
`required = true`, "no" gives `required = false`, and any other text leaves
the `required` key absent from the field rather than at a `false` default. -/
theorem required_flag_amended :
    (∀ c0 c1 c2 c3 : Cell, toLowerStr c2.textStrip = strYes →
        (parseRequestRow [c0, c1, c2, c3]).map (fun f => f.required) = .ok (some true)) ∧
    (∀ c0 c1 c2 c3 : Cell, toLowerStr c2.textStrip = strNo →
        (parseRequestRow [c0, c1, c2, c3]).map (fun f => f.required) = .ok (some false)) ∧
    (∀ c0 c1 c2 c3 : Cell, toLowerStr c2.textStrip ≠ strYes → toLowerStr c2.textStrip ≠ strNo →
        (parseRequestRow [c0, c1, c2, c3]).map (fun f => f.required) = .ok none) := by
  have hne : strNo ≠ strYes := by decide
  refine ⟨fun c0 c1 c2 c3 h => ?_, fun c0 c1 c2 c3 h => ?_, fun c0 c1 c2 c3 h1 h2 => ?_⟩
  · rw [parseRequestRow_four]
    simp [Except.map, h]
  · rw [parseRequestRow_four]
    simp [Except.map, h, hne]
  · rw [parseRequestRow_four]
    simp [Except.map, h1, h2]

theorem required_flag_amended_witness :
    ((parseRequestRow (reqRow4 (sl "Yes"))).map (fun f => f.required) = .ok (some true)) ∧
    ((parseRequestRow (reqRow4 (sl "no"))).map (fun f => f.required) = .ok (some false)) ∧
    ((parseRequestRow (reqRow4 (sl "other"))).map (fun f => f.required) = .ok none) :=
  ⟨required_flag_amended.1 (mkCellS (sl "key")) (mkCellS (sl "Integer"))
      (mkCellS (sl "Yes")) (mkCellS (sl "desc")) (by decide),
   required_flag_amended.2.1 (mkCellS (sl "key")) (mkCellS (sl "Integer"))
      (mkCellS (sl "no")) (mkCellS (sl "desc")) (by decide),
   required_flag_amended.2.2 (mkCellS (sl "key")) (mkCellS (sl "Integer"))
      (mkCellS (sl "other")) (mkCellS (sl "desc")) (by decide) (by decide)⟩

/-- C4: the code contradicts the documented extraction on quote-wrapped
defaults followed by punctuation.  For description `The default is "100".`
the token is `"100".`; `dv[1:-1]` removes the opening quote and the final
period — not the closing quote — and the later `rstrip(".,")` cannot remove
the now-inner quote, so the produced default is `100"` instead of `100`.
The unquoted example `The default is 20.` produces `20` as documented. -/
theorem default_value_quoted_bug :
    ((parseRequestRow (reqRowDesc (sl "The default is \"100\"."))).map (fun f => f.default_value)
        = .ok (some (sl "100\""))) ∧
    ((parseRequestRow (reqRowDesc (sl "The default is 20."))).map (fun f => f.default_value)
        = .ok (some (sl "20"))) ∧
    sl "100\"" ≠ sl "100" :=
  ⟨rfl, rfl, by decide⟩

/-- C2 counterexample: the response-body nesting prefix is built from the
raw key (`f-string` on `key`) and the produced keys are case-folded, so the
`data[]`/`id` table yields second key `data[][#].id`, not the claimed
`data[#].id`, and the `Object`/`count` table yields `object.count`, not
`Object.count`; moreover the `Object` prefix is not persistent — the third
row comes out as `count.total`. -/
theorem response_nesting_counterexample :
    ((parse_response_body respArrTable).map (fun fs => fs.map (fun f => f.key))
        = .ok [sl "data[]", sl "data[][#].id", sl "data[][#].name"]) ∧
    sl "data[][#].id" ≠ sl "data[#].id" ∧
    ((parse_response_body respObjTable).map (fun fs => fs.map (fun f => f.key))
        = .ok [sl "object", sl "object.count", sl "count.total"]) ∧
    sl "object.count" ≠ sl "Object.count" :=
  ⟨rfl, by decide, rfl, by decide⟩

/-- C2 (amended): produced keys are case-folded; after a row whose folded
key ends in `[]` the prefix is the raw key plus `[#].` (giving
`data[][#].id`, persisting across following rows), and after a row whose
folded key starts with `object` the prefix is the raw key plus `.` (giving
`object.count`), but that prefix is replaced on every subsequent row since
each formatted key itself starts with `object` (giving `count.total`). -/
theorem response_nesting_amended :
    ((parse_response_body respArrTable).map (fun fs => fs.map (fun f => f.key))
        = .ok [sl "data[]", sl "data[][#].id", sl "data[][#].name"]) ∧
    ((parse_response_body respObjTable).map (fun fs => fs.map (fun f => f.key))
        = .ok [sl "object", sl "object.count", sl "count.total"]) :=
  ⟨rfl, rfl⟩

/-- C7 counterexample: a 5-cell row does not fail loudly — it is parsed as
if it were a 3-cell row, silently taking the third cell as the description
and dropping the rest. -/
theorem cell_count_counterexample :
    ¬ (∀ td : List Cell, td.length ≠ 3 → td.length ≠ 4 →
        ∃ e, parseRequestRow td = .error e) := by
  intro h
  obtain ⟨e, he⟩ := h (reqRow4 (sl "no") ++ [mkCellS (sl "extra")]) (by decide) (by decide)
  rw [show parseRequestRow (reqRow4 (sl "no") ++ [mkCellS (sl "extra")])
      = .ok { key := sl "key", type := sl "integer", required := some false,
              description := sl "no", default_value := none, possible_values := none }
    from rfl] at he
  exact Except.noConfusion he

/-- C7 (amended): rows with fewer than 3 element cells raise an index
error, but rows with 5 or more cells are silently parsed exactly like the
row made of their first three cells (extra cells ignored, required forced
to false), producing a misassigned field instead of a structural error. -/
theorem cell_count_amended :
    (∀ (a b c d e : Cell) (rest : List Cell),
        parseRequestRow (a :: b :: c :: d :: e :: rest) = parseRequestRow [a, b, c]) ∧
    (∀ a b : Cell, parseRequestRow [a, b] = .error .indexError) ∧
    (∀ a : Cell, parseRequestRow [a] = .error .indexError) ∧
    parseRequestRow ([] : List Cell) = .error .indexError := by
  refine ⟨fun a b c d e rest => ?_, fun a b => rfl, fun a => rfl, rfl⟩
  have hlen : ((a :: b :: c :: d :: e :: rest).length = 4) = False :=
    eq_false (by simp only [List.length_cons]; omega)
  unfold parseRequestRow
  simp only [hlen, if_false]
  rfl

/-- C1 counterexample: the walker does not skip "exactly one leading
section-like block regardless of preceding text nodes" — a single leading
text node already consumes the skip flag, after which the first `section`
child is yielded rather than skipped. -/
theorem walker_skip_counterexample :
    ¬ (∀ (pre : List WNode) (s : WNode) (rest : List WNode),
        (∀ n ∈ pre, n.name = none) → isSectionNode s = true →
        walkerYield true (pre ++ s :: rest) = rest.filter (fun n => isSectionNode n)) := by
  intro h
  have hx := h [wTextNode] wSectionNode [] (by decide) (by decide)
  rw [show walkerYield true ([wTextNode] ++ wSectionNode :: []) = [wSectionNode] from rfl] at hx
  exact absurd hx (by decide)

theorem walkerYield_false (l : List WNode) :
    walkerYield false l = l.filter (fun c => isSectionNode c) := by
  induction l with
  | nil => rfl
  | cons c rest ih =>
      rw [walkerYield, List.filter_cons]
      by_cases hcond :
          (false = true ∨ c.name = none ∨ (c.name.map toLowerStr ≠ some (toLowerStr strSection)))
      · have hc : isSectionNode c = false := by
          rcases hcond with hf | hnone | hmap
          · exact absurd hf Bool.false_ne_true
          · unfold isSectionNode
            rw [hnone]
          · unfold isSectionNode
            cases hnm : c.name with
            | none => rfl
            | some n =>
                rw [hnm, Option.map_some'] at hmap
                simp only [ne_eq, Option.some.injEq] at hmap
                simpa using hmap
        rw [if_pos hcond, ih]
        simp [hc]
      · have hc : isSectionNode c = true := by
          push_neg at hcond
          obtain ⟨-, hnn, hmap⟩ := hcond
          unfold isSectionNode
          cases hnm : c.name with
          | none => exact absurd hnm hnn
          | some n =>
              rw [hnm, Option.map_some'] at hmap
              have hl := Option.some.inj hmap
              simpa using hl
        rw [if_neg hcond, ih]
        simp [hc]

/-- C1 (amended): the walker unconditionally skips the very first child of
the main container, whatever it is — the skip flag is cleared on the first
iteration — and every later `section` child yields one record.  Hence the
first section is skipped only when it is the very first child; any
preceding text node consumes the skip instead. -/
theorem walker_skips_first_child (c : WNode) (rest : List WNode) :
    walkerYield true (c :: rest) = rest.filter (fun n => isSectionNode n) := by
  rw [walkerYield, if_pos (Or.inl rfl)]
  exact walkerYield_false rest

theorem lcFold_append (st : LCState) (xs ys : List LNode) :
    lcFold st (xs ++ ys) = Except.bind (lcFold st xs) (fun st2 => lcFold st2 ys) := by
  induction xs generalizing st with
  | nil => rfl
  | cons c rest ih =>
      rw [List.cons_append, lcFold, lcFold]
      cases h : lcStep st c with
      | error e => rfl
      | ok st2 => exact ih st2

theorem lcStep_preserves_title {st st2 : LCState} {c : LNode}
    (hc : ¬ (c.name = some strH2 ∧ idTruthy c.idAttr = true))
    (h : lcStep st c = .ok st2) : st2.doc.title = st.doc.title := by
  unfold lcStep at h
  rw [if_neg hc] at h
  repeat' split at h
  all_goals
    first
      | exact Except.noConfusion h
      | (cases h; rfl)
      | (cases hr : parse_request_body c.tbody with
          | error e => rw [hr] at h; exact Except.noConfusion h
          | ok fs => rw [hr] at h; cases h; rfl)
      | (cases hr : parse_response_body c.tbody with
          | error e => rw [hr] at h; exact Except.noConfusion h
          | ok fs => rw [hr] at h; cases h; rfl)

theorem lcFold_title_none (pre : List LNode) (st0 st : LCState)
    (h0 : st0.doc.title = none)
    (hpre : ∀ n ∈ pre, ¬ (n.name = some strH2 ∧ idTruthy n.idAttr = true))
    (hok : lcFold st0 pre = .ok st) : st.doc.title = none := by
  induction pre generalizing st0 with
  | nil => cases hok; exact h0
  | cons c rest ih =>
      rw [lcFold] at hok
      cases hstep : lcStep st0 c with
      | error e => rw [hstep] at hok; exact Except.noConfusion hok
      | ok st1 =>
          rw [hstep] at hok
          have ht1 : st1.doc.title = st0.doc.title :=
            lcStep_preserves_title (hpre c (by simp)) hstep
          exact ih st1 (ht1.trans h0) (fun n hn => hpre n (by simp [hn])) hok

/-- C9: `scrape_doc_left_column` is partial on its stated input domain —
whenever a paragraph node is reached before any level-2 heading with a
(truthy) id attribute has set the title, evaluating
`endpoint_doc["title"]` in the summary guard raises KeyError instead of
ignoring the paragraph. -/
theorem left_column_paragraph_before_title (pre rest : List LNode) (p : LNode) (st : LCState)
    (hpre : ∀ n ∈ pre, ¬ (n.name = some strH2 ∧ idTruthy n.idAttr = true))
    (hok : lcFold initLCState pre = .ok st)
    (hp : p.name = some strP) :
    scrape_doc_left_column (pre ++ p :: rest) = .error .keyError := by
  have htitle : st.doc.title = none :=
    lcFold_title_none pre initLCState st rfl hpre hok
  have hstep : lcStep st p = .error .keyError := by
    unfold lcStep
    rw [if_neg, if_pos hp, htitle]
    · intro hcon
      obtain ⟨h2name, -⟩ := hcon
      rw [hp] at h2name
      exact absurd (Option.some.inj h2name) (by decide)
  unfold scrape_doc_left_column
  rw [lcFold_append, hok]
  show (lcFold st (p :: rest)).map (fun s => s.doc) = .error .keyError
  rw [lcFold, hstep]
  rfl

theorem left_column_paragraph_before_title_witness :
    scrape_doc_left_column [pNodeW] = .error .keyError :=
  left_column_paragraph_before_title [] [] pNodeW initLCState (by simp) rfl rfl
